import Mathlib

/-!
Shallow embedding of the repository-synchronization core of
`src/gatsby-node.ts` (functions `isAlreadyCloned`, `getTargetBranch`,
`getRepo`, and the error path of `sourceNodes`).

The version-control client (simple-git) and the filesystem are modelled as a
single explicit `World` state for the one `localPath` the call operates on,
following the collaborator contracts the plugin relies on:

  * `clone(url, dest, opts)` populates the directory with the requested
    branch (default branch when no `--branch` option is given), records the
    configured remote URL verbatim, and creates the single remote-tracking
    ref of the cloned branch (a `--depth 1` clone is single-branch);
  * `listRemote(['--get-url'])` returns the configured remote URL;
  * `fetch(['--depth','1'])` refreshes the shallow clone (content of the
    working tree unchanged until a reset);
  * `reset(['--hard', target])` moves the working tree to `target` when
    `target` names a locally known remote-tracking ref `origin/<b>`, and
    fails otherwise.

Failures of the underlying client (network, auth, ...) are injected through
the `*Failure` fields of `World`.  Every client call performed by `getRepo`
is additionally recorded in an event trace, used for the ordering and
option-content claims.  JavaScript's `String.prototype.trim` is embedded as
`jsTrim`, and the template-literal coercion of `undefined` as
`jsTemplateArg`.
-/

namespace GitSourcePlugin

/-- Working-tree content of a checkout: file path to file bytes. -/
abbrev FileTree := List (String × String)

/-- JavaScript whitespace recognised by `String.prototype.trim` (the
characters that occur in practice for git remote URLs). -/
def isJsSpace (c : Char) : Bool :=
  c == ' ' || c == '\t' || c == '\n' || c == '\r'

/-- Embedding of JavaScript `String.prototype.trim`: strip leading and
trailing whitespace. -/
def jsTrim (s : String) : String :=
  String.mk (((s.data.reverse.dropWhile isJsSpace).reverse).dropWhile isJsSpace)

/-- Embedding of JavaScript template-literal coercion for an optional
string: an absent (`undefined`) value interpolates as the literal text
`undefined`. -/
def jsTemplateArg : Option String → String
  | some s => s
  | none => "undefined"

/-- State of the directory at `localPath`. -/
structure LocalState where
  dirExists : Bool
  entries : List String
  isRepo : Bool
  storedRemoteUrl : String
  headBranch : String
  originRefs : List String
  files : FileTree
deriving DecidableEq, Repr

/-- The upstream repository: default branch and branch contents. -/
structure RemoteRepo where
  defaultBranch : String
  branches : List (String × FileTree)
deriving DecidableEq, Repr

/-- Whole state a `getRepo` call runs against: the local directory, the
upstream remote, and injected failures of the underlying client calls. -/
structure World where
  localFs : LocalState
  remote : RemoteRepo
  cloneFailure : Option String
  fetchFailure : Option String
  resetFailure : Option String
  listRemoteFailure : Option String
deriving DecidableEq, Repr

/-- Client calls issued by `getRepo`, in order. -/
inductive GitEvent
  | existsCheck
  | readDir
  | listRemote
  | clone (url : String) (dest : String) (opts : List String)
  | fetch (opts : List String)
  | reset (opts : List String)
deriving DecidableEq, Repr

def GitEvent.isClone : GitEvent → Bool
  | GitEvent.clone _ _ _ => true
  | _ => false

def GitEvent.isFetch : GitEvent → Bool
  | GitEvent.fetch _ => true
  | _ => false

def GitEvent.isReset : GitEvent → Bool
  | GitEvent.reset _ => true
  | _ => false

def GitEvent.isListRemote : GitEvent → Bool
  | GitEvent.listRemote => true
  | _ => false

/-- A client call that writes to the directory at `localPath`. -/
def GitEvent.isMutation : GitEvent → Bool
  | GitEvent.clone _ _ _ => true
  | GitEvent.fetch _ => true
  | GitEvent.reset _ => true
  | _ => false

def lookupBranch (b : String) (r : RemoteRepo) : Option FileTree :=
  (r.branches.find? (fun p => p.1 == b)).map (fun p => p.2)

/-- Contract of `git clone` as used here: on success the directory is
populated with the requested branch (default branch when none requested),
the remote URL is stored verbatim, and the single remote-tracking ref of
the cloned branch exists (`--depth 1` implies single-branch). -/
def cloneStep (url : String) (branch : Option String) (w : World) :
    Except String World :=
  match w.cloneFailure with
  | some msg => Except.error msg
  | none =>
    match branch with
    | some b =>
      match lookupBranch b w.remote with
      | some fs =>
        Except.ok { w with localFs :=
          { dirExists := true
            entries := ".git" :: fs.map Prod.fst
            isRepo := true
            storedRemoteUrl := url
            headBranch := b
            originRefs := [b]
            files := fs } }
      | none =>
        Except.error ("fatal: Remote branch " ++ b ++ " not found in upstream origin")
    | none =>
      match lookupBranch w.remote.defaultBranch w.remote with
      | some fs =>
        Except.ok { w with localFs :=
          { dirExists := true
            entries := ".git" :: fs.map Prod.fst
            isRepo := true
            storedRemoteUrl := url
            headBranch := w.remote.defaultBranch
            originRefs := [w.remote.defaultBranch]
            files := fs } }
      | none => Except.error "fatal: could not determine upstream HEAD"

/-- Contract of `git fetch --depth 1`: refreshes the shallow clone; the
working tree is unchanged until a reset. -/
def fetchStep (w : World) : Except String World :=
  match w.fetchFailure with
  | some msg => Except.error msg
  | none => Except.ok w

/-- A ref string `origin/<b>` resolves exactly when `b` is a locally known
remote-tracking ref; the content it resolves to is the upstream content of
`b` (the fetch preceding every reset has refreshed it). -/
def resolveOriginRef (target : String) (l : LocalState) (r : RemoteRepo) :
    Option FileTree :=
  match l.originRefs.find? (fun b => target == "origin/" ++ b) with
  | some b => lookupBranch b r
  | none => none

/-- Contract of `git reset --hard <target>`: move the working tree to the
resolved target; fail, leaving the tree unchanged, when the target does not
resolve. -/
def resetStep (target : String) (w : World) : Except String World :=
  match w.resetFailure with
  | some msg => Except.error msg
  | none =>
    match resolveOriginRef target w.localFs w.remote with
    | some fs =>
      Except.ok { w with localFs :=
        { w.localFs with entries := ".git" :: fs.map Prod.fst, files := fs } }
    | none => Except.error ("fatal: ambiguous argument: " ++ target)

/-- Contract of `git(repoPath).listRemote(['--get-url'])`: the configured
remote URL of the checkout, an error when there is no checkout (or the
injected failure). -/
def listRemoteGetUrl (w : World) : Except String String :=
  match w.listRemoteFailure with
  | some msg => Except.error msg
  | none =>
    if w.localFs.isRepo then Except.ok w.localFs.storedRemoteUrl
    else Except.error "fatal: not a git repository"

/-- Function `isAlreadyCloned` from `src/gatsby-node.ts:28`:
`(await git(repoPath).listRemote(['--get-url'])).trim() == remote.trim()`;
a rejection of the query propagates. -/
def isAlreadyCloned (remote : String) (w : World) : Except String Bool :=
  match listRemoteGetUrl w with
  | Except.ok existingRemote => Except.ok (jsTrim existingRemote == jsTrim remote)
  | Except.error e => Except.error e

/-- Function `getTargetBranch` from `src/gatsby-node.ts:40`: the template literal
`origin/${branch}`; it reads nothing from the repository. -/
def getTargetBranch (branch : Option String) : String :=
  "origin/" ++ jsTemplateArg branch

/-- The options array built for `git clone` at `src/gatsby-node.ts:58`:
always `--depth 1`, plus `--branch <branch>` exactly when
`typeof branch == 'string'`. -/
def cloneOpts (branch : Option String) : List String :=
  ["--depth", "1"] ++ (match branch with
    | some b => ["--branch", b]
    | none => [])

/-- Errors a `getRepo` call can reject with. -/
inductive SyncError
  | cloneConflict (cachePath : String)
  | syncFailure (cause : String)
deriving DecidableEq, Repr

deriving instance DecidableEq for Except

/-- Outcome of one `getRepo` call: its settled promise, the state of the
world afterwards, and the trace of client calls issued. -/
structure RunResult where
  result : Except SyncError String
  world : World
  trace : List GitEvent
deriving DecidableEq, Repr

/-- Clone arm of `getRepo` (`src/gatsby-node.ts:57-63`). -/
def getRepoClone (cachePath remote : String) (branch : Option String)
    (w : World) (detect : List GitEvent) : RunResult :=
  match cloneStep remote branch w with
  | Except.ok w1 =>
    ⟨Except.ok cachePath, w1, detect ++ [GitEvent.clone remote cachePath (cloneOpts branch)]⟩
  | Except.error e =>
    ⟨Except.error (SyncError.syncFailure e), w, detect ++ [GitEvent.clone remote cachePath (cloneOpts branch)]⟩

/-- Re-sync arm of `getRepo` (`src/gatsby-node.ts:64-71`):
`repo.fetch(['--depth','1']).then(() => repo.reset(['--hard', target]))`. -/
def getRepoSync (cachePath : String) (branch : Option String)
    (w : World) (detect : List GitEvent) : RunResult :=
  match fetchStep w with
  | Except.error e =>
    ⟨Except.error (SyncError.syncFailure e), w, detect ++ [GitEvent.fetch ["--depth", "1"]]⟩
  | Except.ok w1 =>
    match resetStep (getTargetBranch branch) w1 with
    | Except.error e =>
      ⟨Except.error (SyncError.syncFailure e), w1,
        detect ++ [GitEvent.fetch ["--depth", "1"],
                   GitEvent.reset ["--hard", getTargetBranch branch]]⟩
    | Except.ok w2 =>
      ⟨Except.ok cachePath, w2,
        detect ++ [GitEvent.fetch ["--depth", "1"],
                   GitEvent.reset ["--hard", getTargetBranch branch]]⟩

/-- Function `getRepo` from `src/gatsby-node.ts:52-75`.  The condition
`!fs.existsSync(cachePath) || fs.readdirSync(cachePath).length === 0`
short-circuits: `readdirSync` is only called when the directory exists. -/
def getRepo (cachePath remote : String) (branch : Option String)
    (w : World) : RunResult :=
  if w.localFs.dirExists = false then
    getRepoClone cachePath remote branch w [GitEvent.existsCheck]
  else if w.localFs.entries.length = 0 then
    getRepoClone cachePath remote branch w [GitEvent.existsCheck, GitEvent.readDir]
  else
    match isAlreadyCloned remote w with
    | Except.ok true =>
      getRepoSync cachePath branch w
        [GitEvent.existsCheck, GitEvent.readDir, GitEvent.listRemote]
    | Except.ok false =>
      ⟨Except.error (SyncError.cloneConflict cachePath), w,
        [GitEvent.existsCheck, GitEvent.readDir, GitEvent.listRemote]⟩
    | Except.error e =>
      ⟨Except.error (SyncError.syncFailure e), w,
        [GitEvent.existsCheck, GitEvent.readDir, GitEvent.listRemote]⟩

/-- The message of the `Error` handed to `reporter.error` at
`src/gatsby-node.ts:117`: the JavaScript string rendering of the caught
error (`new Error(` then the template `${e}` then `)`). -/
def SyncError.jsMessage : SyncError → String
  | SyncError.cloneConflict p => "Error: Can't clone to target destination: " ++ p
  | SyncError.syncFailure c => "Error: " ++ c

/-- Observable plugin actions of one `sourceNodes` invocation. -/
inductive SourceAction
  | reporterError (msg : String)
  | createNode (nodeId : String)
deriving DecidableEq, Repr

def SourceAction.isCreateNode : SourceAction → Bool
  | SourceAction.createNode _ => true
  | _ => false

/-- The `sourceNodes` lifecycle hook (`src/gatsby-node.ts:90-167`), observed
through the actions it performs: on a `getRepo` rejection it reports the
error and returns (the promise resolves); on success it creates the
`GitRemote` node and then one node per globbed file.  The success-path node
payloads (parsed remote, digest) are abstracted to node identities. -/
def sourceNodes (name cachePath remote : String) (branch : Option String)
    (w : World) (globFiles : List String) : Except String (List SourceAction) :=
  match (getRepo cachePath remote branch w).result with
  | Except.error e => Except.ok [SourceAction.reporterError (SyncError.jsMessage e)]
  | Except.ok _ =>
    Except.ok (SourceAction.createNode ("git-remote-" ++ name) ::
      globFiles.map (fun f => SourceAction.createNode f))

/-! ### Concrete worlds used as witnesses and counterexamples -/

/-- A remote with branches `main` (default) and `dev`. -/
def remoteTwoBranches : RemoteRepo :=
  { defaultBranch := "main"
    branches := [("main", [("a.md", "A"), ("b.md", "B")]), ("dev", [("a.md", "D")])] }

/-- World where `localPath` does not exist. -/
def wAbsent : World :=
  { localFs :=
      { dirExists := false
        entries := []
        isRepo := false
        storedRemoteUrl := ""
        headBranch := ""
        originRefs := []
        files := [] }
    remote := remoteTwoBranches
    cloneFailure := none
    fetchFailure := none
    resetFailure := none
    listRemoteFailure := none }

/-- World where `localPath` is populated with a checkout of a different remote. -/
def wMismatch : World :=
  { localFs :=
      { dirExists := true
        entries := [".git", "a.md"]
        isRepo := true
        storedRemoteUrl := "https://example.com/other.git"
        headBranch := "main"
        originRefs := ["main"]
        files := [("a.md", "X")] }
    remote := remoteTwoBranches
    cloneFailure := none
    fetchFailure := none
    resetFailure := none
    listRemoteFailure := none }

/-- World where `localPath` is populated with a matching-remote checkout tracking `main`
(the stored URL carries a trailing newline, as `git remote get-url`
output does). -/
def wMatching : World :=
  { localFs :=
      { dirExists := true
        entries := [".git", "a.md", "b.md"]
        isRepo := true
        storedRemoteUrl := "https://example.com/site.git\n"
        headBranch := "main"
        originRefs := ["main"]
        files := [("a.md", "A"), ("b.md", "B")] }
    remote := remoteTwoBranches
    cloneFailure := none
    fetchFailure := none
    resetFailure := none
    listRemoteFailure := none }

/-- Like `wMatching`, with a network failure injected into `fetch`. -/
def wMatchingFetchDown : World :=
  { wMatching with fetchFailure := some "fatal: unable to access remote" }

/-! ### C5 — trim-normalized, case-sensitive remote comparison -/

/-- C5: `isAlreadyCloned` holds iff the trimmed stored URL and the trimmed
input URL are equal as exact, case-sensitive strings; moreover trimming
erases a trailing newline, so such a difference never fails the check. -/
theorem isAlreadyCloned_trim_spec (s r : String) (w : World)
    (hrepo : w.localFs.isRepo = true)
    (hs : w.localFs.storedRemoteUrl = s)
    (hq : w.listRemoteFailure = none) :
    isAlreadyCloned r w = Except.ok (jsTrim s == jsTrim r) ∧
    (isAlreadyCloned r w = Except.ok true ↔ jsTrim s = jsTrim r) ∧
    jsTrim (s ++ "\n") = jsTrim s := by
  have h1 : isAlreadyCloned r w = Except.ok (jsTrim s == jsTrim r) := by
    simp [isAlreadyCloned, listRemoteGetUrl, hq, hrepo, hs]
  have hnl : isJsSpace '\n' = true := by decide
  have h3 : jsTrim (s ++ "\n") = jsTrim s := by
    have hdata : (s ++ "\n").data = s.data ++ ['\n'] := by
      simp [String.data_append]
    simp [jsTrim, hdata, List.dropWhile, hnl]
  refine ⟨h1, ?_, h3⟩
  rw [h1]
  constructor
  · intro h
    have := Except.ok.inj h
    exact eq_of_beq this
  · intro h
    rw [h, beq_self_eq_true]

/-- C5 witness: a stored URL with a trailing newline matches the same URL
without it. -/
theorem isAlreadyCloned_trim_spec_witness :
    isAlreadyCloned "https://example.com/site.git" wMatching = Except.ok true ∧
    jsTrim ("https://example.com/site.git" ++ "\n") = jsTrim "https://example.com/site.git" := by
  have h := isAlreadyCloned_trim_spec "https://example.com/site.git\n"
    "https://example.com/site.git" wMatching rfl rfl rfl
  refine ⟨h.2.1.mpr (by decide), by decide⟩

/-! ### C1 — mismatched remote: fail, mutate nothing -/

/-- C1: on a populated directory whose configured remote differs (after
trimming) from the requested remote, `getRepo` rejects with the
configuration-conflict error, issues no clone, fetch or reset, and leaves
the world (hence the filesystem at `localPath`) unchanged. -/
theorem mismatched_remote_conflict_unchanged (cachePath remote : String)
    (branch : Option String) (w : World)
    (hex : w.localFs.dirExists = true)
    (hne : w.localFs.entries ≠ [])
    (hrepo : w.localFs.isRepo = true)
    (hq : w.listRemoteFailure = none)
    (hmm : jsTrim w.localFs.storedRemoteUrl ≠ jsTrim remote) :
    (getRepo cachePath remote branch w).result
      = Except.error (SyncError.cloneConflict cachePath) ∧
    (getRepo cachePath remote branch w).world = w ∧
    (getRepo cachePath remote branch w).trace.filter GitEvent.isMutation = [] := by
  have hb : (jsTrim w.localFs.storedRemoteUrl == jsTrim remote) = false :=
    beq_eq_false_iff_ne.mpr hmm
  have hlen : ¬ w.localFs.entries.length = 0 := by
    simpa [List.length_eq_zero] using hne
  simp [getRepo, isAlreadyCloned, listRemoteGetUrl, hex, hq, hrepo, hb, hlen,
    List.filter, GitEvent.isMutation]

/-- C1 witness: the mismatched world is rejected untouched. -/
theorem mismatched_remote_conflict_unchanged_witness :
    (getRepo "/cache/site" "https://example.com/site.git" none wMismatch).result
      = Except.error (SyncError.cloneConflict "/cache/site") ∧
    (getRepo "/cache/site" "https://example.com/site.git" none wMismatch).world
      = wMismatch := by
  have h := mismatched_remote_conflict_unchanged "/cache/site"
    "https://example.com/site.git" none wMismatch rfl (by decide) rfl rfl (by decide)
  exact ⟨h.1, h.2.1⟩

/-! ### Shape lemmas about the client steps -/

theorem cloneStep_ok_shape (url : String) (branch : Option String) (w w1 : World)
    (hc : cloneStep url branch w = Except.ok w1) :
    w1.localFs.dirExists = true ∧ w1.localFs.entries ≠ [] ∧
    w1.localFs.storedRemoteUrl = url := by
  unfold cloneStep at hc
  split at hc
  · simp at hc
  · split at hc
    · split at hc
      · injection hc with h
        subst h
        simp
      · simp at hc
    · split at hc
      · injection hc with h
        subst h
        simp
      · simp at hc

theorem cloneStep_ok_none_default (url : String) (w w1 : World)
    (hc : cloneStep url none w = Except.ok w1) :
    w1.localFs.headBranch = w.remote.defaultBranch := by
  unfold cloneStep at hc
  split at hc
  · simp at hc
  · split at hc
    · simp_all
    · split at hc
      · injection hc with h
        subst h
        simp
      · simp at hc

theorem fetchStep_ok_id (w w1 : World) (hf : fetchStep w = Except.ok w1) :
    w1 = w := by
  unfold fetchStep at hf
  split at hf
  · simp at hf
  · exact (Except.ok.inj hf).symm

theorem resetStep_ok_shape (target : String) (w w2 : World)
    (hr : resetStep target w = Except.ok w2) :
    w2.localFs.dirExists = w.localFs.dirExists ∧ w2.localFs.entries ≠ [] ∧
    w2.localFs.storedRemoteUrl = w.localFs.storedRemoteUrl := by
  unfold resetStep at hr
  split at hr
  · simp at hr
  · split at hr
    · injection hr with h
      subst h
      simp
    · simp at hr

theorem dirExists_true_of_not_false (w : World)
    (hex : ¬ w.localFs.dirExists = false) : w.localFs.dirExists = true := by
  revert hex
  cases w.localFs.dirExists <;> simp

/-! ### C2 — success invariant -/

/-- C2: whenever `getRepo` resolves successfully, the directory at
`localPath` exists, is non-empty, and its configured remote URL equals the
requested `remoteUrl` up to whitespace trimming. -/
theorem getRepo_success_invariant (cachePath remote hnd : String)
    (branch : Option String) (w : World)
    (hok : (getRepo cachePath remote branch w).result = Except.ok hnd) :
    (getRepo cachePath remote branch w).world.localFs.dirExists = true ∧
    (getRepo cachePath remote branch w).world.localFs.entries ≠ [] ∧
    jsTrim (getRepo cachePath remote branch w).world.localFs.storedRemoteUrl
      = jsTrim remote := by
  by_cases hex : w.localFs.dirExists = false
  · cases hc : cloneStep remote branch w with
    | error e => simp [getRepo, getRepoClone, hex, hc] at hok
    | ok w1 =>
      have hshape := cloneStep_ok_shape remote branch w w1 hc
      simp [getRepo, getRepoClone, hex, hc, hshape.1, hshape.2.1, hshape.2.2]
  · by_cases hlen : w.localFs.entries.length = 0
    · cases hc : cloneStep remote branch w with
      | error e => simp [getRepo, getRepoClone, hex, hlen, hc] at hok
      | ok w1 =>
        have hshape := cloneStep_ok_shape remote branch w w1 hc
        simp [getRepo, getRepoClone, hex, hlen, hc, hshape.1, hshape.2.1, hshape.2.2]
    · cases hial : isAlreadyCloned remote w with
      | error e => simp [getRepo, hex, hlen, hial] at hok
      | ok b =>
        cases b with
        | false => simp [getRepo, hex, hlen, hial] at hok
        | true =>
          have htrim : jsTrim w.localFs.storedRemoteUrl = jsTrim remote := by
            cases hq : w.listRemoteFailure with
            | some c => simp [isAlreadyCloned, listRemoteGetUrl, hq] at hial
            | none =>
              cases hrepo : w.localFs.isRepo with
              | false => simp [isAlreadyCloned, listRemoteGetUrl, hq, hrepo] at hial
              | true =>
                simp [isAlreadyCloned, listRemoteGetUrl, hq, hrepo] at hial
                exact hial
          cases hf : fetchStep w with
          | error e => simp [getRepo, getRepoSync, hex, hlen, hial, hf] at hok
          | ok w1 =>
            obtain rfl : w = w1 := (fetchStep_ok_id w w1 hf).symm
            cases hr : resetStep (getTargetBranch branch) w with
            | error e => simp [getRepo, getRepoSync, hex, hlen, hial, hf, hr] at hok
            | ok w2 =>
              have hshape := resetStep_ok_shape (getTargetBranch branch) w w2 hr
              have hex' := dirExists_true_of_not_false w hex
              simp [getRepo, getRepoSync, hex, hlen, hial, hf, hr,
                hshape.1, hshape.2.1, hshape.2.2, hex', htrim]

/-- C2 witness: a fresh clone into an absent directory establishes the
invariant. -/
theorem getRepo_success_invariant_witness :
    (getRepo "/cache/site" "https://example.com/site.git" none wAbsent).result
      = Except.ok "/cache/site" ∧
    (getRepo "/cache/site" "https://example.com/site.git" none wAbsent).world.localFs.dirExists
      = true ∧
    jsTrim (getRepo "/cache/site" "https://example.com/site.git" none wAbsent).world.localFs.storedRemoteUrl
      = jsTrim "https://example.com/site.git" := by
  have h := getRepo_success_invariant "/cache/site" "https://example.com/site.git"
    "/cache/site" none wAbsent (by decide)
  exact ⟨by decide, h.1, h.2.2⟩

/-- The same world with the directory at `localPath` removed. -/
def markAbsent (w : World) : World :=
  { w with localFs := { w.localFs with dirExists := false } }

theorem markAbsent_dirExists (w : World) :
    (markAbsent w).localFs.dirExists = false := rfl

theorem cloneStep_markAbsent (url : String) (branch : Option String) (w : World) :
    cloneStep url branch (markAbsent w) = cloneStep url branch w := rfl

/-! ### C4 — an existing empty directory behaves like an absent one -/

/-- C4: when `localPath` exists but has zero directory entries, `getRepo`
behaves exactly as on a nonexistent path: same settled result, a fresh
clone as the only mutating call, never a fetch or a reset, and on success
the same resulting world. -/
theorem empty_dir_same_as_absent (cachePath remote : String)
    (branch : Option String) (w : World)
    (hex : w.localFs.dirExists = true)
    (hempty : w.localFs.entries = []) :
    (getRepo cachePath remote branch w).result
      = (getRepo cachePath remote branch (markAbsent w)).result ∧
    (getRepo cachePath remote branch w).trace.filter GitEvent.isMutation
      = [GitEvent.clone remote cachePath (cloneOpts branch)] ∧
    (getRepo cachePath remote branch (markAbsent w)).trace.filter GitEvent.isMutation
      = [GitEvent.clone remote cachePath (cloneOpts branch)] ∧
    (∀ hnd, (getRepo cachePath remote branch w).result = Except.ok hnd →
      (getRepo cachePath remote branch w).world
        = (getRepo cachePath remote branch (markAbsent w)).world) := by
  cases hc : cloneStep remote branch w with
  | error e =>
    simp [getRepo, getRepoClone, hex, hempty, hc,
      markAbsent_dirExists, cloneStep_markAbsent,
      List.filter, GitEvent.isMutation]
  | ok w1 =>
    simp [getRepo, getRepoClone, hex, hempty, hc,
      markAbsent_dirExists, cloneStep_markAbsent,
      List.filter, GitEvent.isMutation]

/-- C4 witness: an existing-but-empty cache directory is cloned into, with
the same result as the absent case. -/
theorem empty_dir_same_as_absent_witness :
    (getRepo "/cache/site" "https://example.com/site.git" none
        { wAbsent with localFs := { wAbsent.localFs with dirExists := true } }).result
      = (getRepo "/cache/site" "https://example.com/site.git" none
          (markAbsent { wAbsent with localFs :=
            { wAbsent.localFs with dirExists := true } })).result ∧
    (getRepo "/cache/site" "https://example.com/site.git" none
        { wAbsent with localFs := { wAbsent.localFs with dirExists := true } }).trace.filter
        GitEvent.isMutation
      = [GitEvent.clone "https://example.com/site.git" "/cache/site" ["--depth", "1"]] := by
  have h := empty_dir_same_as_absent "/cache/site" "https://example.com/site.git" none
    { wAbsent with localFs := { wAbsent.localFs with dirExists := true } } rfl rfl
  exact ⟨h.1, h.2.1⟩

/-! ### C6 — clone call: depth 1, branch restriction iff branch given -/

/-- C6: in the absent/empty state the single clone issued carries
`--depth 1`, carries `--branch <b>` exactly when the branch argument is a
string, no fetch and no reset are issued, and an unrestricted clone checks
out the remote's default branch. -/
theorem clone_shallow_and_branch_option (cachePath remote : String)
    (branch : Option String) (w : World)
    (habs : w.localFs.dirExists = false ∨ w.localFs.entries = []) :
    (getRepo cachePath remote branch w).trace.filter GitEvent.isClone
      = [GitEvent.clone remote cachePath (cloneOpts branch)] ∧
    (getRepo cachePath remote branch w).trace.filter GitEvent.isFetch = [] ∧
    (getRepo cachePath remote branch w).trace.filter GitEvent.isReset = [] ∧
    cloneOpts branch
      = ["--depth", "1"] ++ (match branch with
          | some b => ["--branch", b]
          | none => []) ∧
    (("--branch" ∈ cloneOpts branch) ↔ branch.isSome = true) ∧
    (∀ hnd, branch = none → (getRepo cachePath remote branch w).result = Except.ok hnd →
      (getRepo cachePath remote branch w).world.localFs.headBranch
        = w.remote.defaultBranch) := by
  have hmem : ("--branch" ∈ cloneOpts branch) ↔ branch.isSome = true := by
    cases branch <;> simp [cloneOpts]
  have harm : ∀ detect,
      (getRepoClone cachePath remote branch w detect).trace.filter GitEvent.isClone
        = detect.filter GitEvent.isClone
          ++ [GitEvent.clone remote cachePath (cloneOpts branch)] ∧
      (getRepoClone cachePath remote branch w detect).trace.filter GitEvent.isFetch
        = detect.filter GitEvent.isFetch ∧
      (getRepoClone cachePath remote branch w detect).trace.filter GitEvent.isReset
        = detect.filter GitEvent.isReset ∧
      (∀ hnd, branch = none →
        (getRepoClone cachePath remote branch w detect).result = Except.ok hnd →
        (getRepoClone cachePath remote branch w detect).world.localFs.headBranch
          = w.remote.defaultBranch) := by
    intro detect
    cases hc : cloneStep remote branch w with
    | error e => simp [getRepoClone, hc, List.filter, GitEvent.isClone,
        GitEvent.isFetch, GitEvent.isReset]
    | ok w1 =>
      refine ⟨?_, ?_, ?_, ?_⟩ <;>
        simp [getRepoClone, hc, List.filter, GitEvent.isClone,
          GitEvent.isFetch, GitEvent.isReset]
      intro hnone
      subst hnone
      exact cloneStep_ok_none_default remote w w1 hc
  rcases habs with hex | hempty
  · have h := harm [GitEvent.existsCheck]
    refine ⟨?_, ?_, ?_, rfl, hmem, ?_⟩ <;>
      simp [getRepo, hex, List.filter, GitEvent.isClone, GitEvent.isFetch,
        GitEvent.isReset] at h ⊢ <;>
      tauto
  · by_cases hex : w.localFs.dirExists = false
    · have h := harm [GitEvent.existsCheck]
      refine ⟨?_, ?_, ?_, rfl, hmem, ?_⟩ <;>
        simp [getRepo, hex, List.filter, GitEvent.isClone, GitEvent.isFetch,
          GitEvent.isReset] at h ⊢ <;>
        tauto
    · have h := harm [GitEvent.existsCheck, GitEvent.readDir]
      refine ⟨?_, ?_, ?_, rfl, hmem, ?_⟩ <;>
        simp [getRepo, hex, hempty, List.filter, GitEvent.isClone, GitEvent.isFetch,
          GitEvent.isReset] at h ⊢ <;>
        tauto

/-- C6 witness: cloning into an absent path with a given branch issues
`--depth 1 --branch dev`; with no branch the default branch is checked
out. -/
theorem clone_shallow_and_branch_option_witness :
    (getRepo "/cache/site" "https://example.com/site.git" (some "dev") wAbsent).trace.filter
        GitEvent.isClone
      = [GitEvent.clone "https://example.com/site.git" "/cache/site"
          ["--depth", "1", "--branch", "dev"]] ∧
    (getRepo "/cache/site" "https://example.com/site.git" none wAbsent).world.localFs.headBranch
      = "main" := by
  have h1 := clone_shallow_and_branch_option "/cache/site" "https://example.com/site.git"
    (some "dev") wAbsent (Or.inl rfl)
  have h2 := clone_shallow_and_branch_option "/cache/site" "https://example.com/site.git"
    none wAbsent (Or.inl rfl)
  refine ⟨h1.1, ?_⟩
  have := h2.2.2.2.2.2 "/cache/site" rfl (by decide)
  simpa [wAbsent, remoteTwoBranches] using this

/-! ### C3 — the re-sync reset target is not derived from HEAD -/

/-- C3 counterexample: a populated matching checkout tracks branch `main`,
yet a branch-less re-sync resets to the literal `origin/undefined` — the
template interpolation of the absent argument — and never to
`origin/<tracked branch>`.  `getTargetBranch` reads nothing from the
checkout. -/
theorem reset_target_not_from_head_counterexample :
    wMatching.localFs.headBranch = "main" ∧
    GitEvent.reset ["--hard", "origin/undefined"]
      ∈ (getRepo "/cache/site" "https://example.com/site.git" none wMatching).trace ∧
    GitEvent.reset ["--hard", "origin/" ++ wMatching.localFs.headBranch]
      ∉ (getRepo "/cache/site" "https://example.com/site.git" none wMatching).trace ∧
    getTargetBranch none ≠ "origin/" ++ wMatching.localFs.headBranch := by
  decide

/-- C3 amended: on a matching-remote re-sync the hard-reset target is the
string `origin/` followed by the JavaScript interpolation of the branch
argument — the literal `origin/undefined` when the argument is absent —
independent of the branch the existing checkout is tracking. -/
theorem reset_target_literal_interpolation (cachePath remote : String)
    (branch : Option String) (w : World)
    (hex : w.localFs.dirExists = true)
    (hne : w.localFs.entries ≠ [])
    (hrepo : w.localFs.isRepo = true)
    (hq : w.listRemoteFailure = none)
    (hmatch : jsTrim w.localFs.storedRemoteUrl = jsTrim remote)
    (hfetch : w.fetchFailure = none) :
    GitEvent.reset ["--hard", "origin/" ++ jsTemplateArg branch]
      ∈ (getRepo cachePath remote branch w).trace ∧
    getTargetBranch branch = "origin/" ++ jsTemplateArg branch := by
  have hb : (jsTrim w.localFs.storedRemoteUrl == jsTrim remote) = true :=
    beq_iff_eq.mpr hmatch
  have hlen : ¬ w.localFs.entries.length = 0 := by
    simpa [List.length_eq_zero] using hne
  refine ⟨?_, rfl⟩
  cases hr : resetStep ("origin/" ++ jsTemplateArg branch) w with
  | error e =>
    simp [getRepo, getRepoSync, isAlreadyCloned, listRemoteGetUrl, hex, hlen,
      hq, hrepo, hb, fetchStep, hfetch, hr, getTargetBranch]
  | ok w2 =>
    simp [getRepo, getRepoSync, isAlreadyCloned, listRemoteGetUrl, hex, hlen,
      hq, hrepo, hb, fetchStep, hfetch, hr, getTargetBranch]

/-- C3 amended witness: the branch-less re-sync on the matching world
issues a reset to `origin/undefined`. -/
theorem reset_target_literal_interpolation_witness :
    GitEvent.reset ["--hard", "origin/undefined"]
      ∈ (getRepo "/cache/site" "https://example.com/site.git" none wMatching).trace := by
  have h := reset_target_literal_interpolation "/cache/site"
    "https://example.com/site.git" none wMatching rfl (by decide) rfl rfl
    (by decide) rfl
  simpa [jsTemplateArg] using h.1

/-! ### C10 — sourceNodes reports a getRepo failure and creates no node -/

/-- C10: when `getRepo` rejects, `sourceNodes` reports the error through
the reporter, creates neither the `GitRemote` node nor any file node, and
itself resolves normally rather than rejecting. -/
theorem sourceNodes_error_path (name cachePath remote : String)
    (branch : Option String) (w : World) (globFiles : List String) (e : SyncError)
    (herr : (getRepo cachePath remote branch w).result = Except.error e) :
    sourceNodes name cachePath remote branch w globFiles
      = Except.ok [SourceAction.reporterError (SyncError.jsMessage e)] ∧
    (∀ res, sourceNodes name cachePath remote branch w globFiles = Except.ok res →
      res.filter SourceAction.isCreateNode = []) := by
  have h1 : sourceNodes name cachePath remote branch w globFiles
      = Except.ok [SourceAction.reporterError (SyncError.jsMessage e)] := by
    simp [sourceNodes, herr]
  refine ⟨h1, ?_⟩
  intro res hres
  rw [h1] at hres
  obtain rfl : [SourceAction.reporterError (SyncError.jsMessage e)] = res :=
    Except.ok.inj hres
  simp [List.filter, SourceAction.isCreateNode]

/-- C10 witness: on the mismatched-remote world `sourceNodes` resolves with
only the reporter call. -/
theorem sourceNodes_error_path_witness :
    sourceNodes "site" "/cache/site" "https://example.com/site.git" none
        wMismatch ["a.md"]
      = Except.ok [SourceAction.reporterError
          "Error: Can't clone to target destination: /cache/site"] := by
  have h := sourceNodes_error_path "site" "/cache/site" "https://example.com/site.git"
    none wMismatch ["a.md"] (SyncError.cloneConflict "/cache/site") (by decide)
  simpa [SyncError.jsMessage] using h.1

/-! ### Trace shapes of a getRepo call -/

/-- Every `getRepo` call issues one of five call sequences; a reset is only
ever issued right after a fetch that did not fail. -/
theorem getRepo_trace_cases (cachePath remote : String)
    (branch : Option String) (w : World) :
    (getRepo cachePath remote branch w).trace
        = [GitEvent.existsCheck,
           GitEvent.clone remote cachePath (cloneOpts branch)] ∨
    (getRepo cachePath remote branch w).trace
        = [GitEvent.existsCheck, GitEvent.readDir,
           GitEvent.clone remote cachePath (cloneOpts branch)] ∨
    (getRepo cachePath remote branch w).trace
        = [GitEvent.existsCheck, GitEvent.readDir, GitEvent.listRemote] ∨
    (getRepo cachePath remote branch w).trace
        = [GitEvent.existsCheck, GitEvent.readDir, GitEvent.listRemote,
           GitEvent.fetch ["--depth", "1"]] ∨
    ((getRepo cachePath remote branch w).trace
        = [GitEvent.existsCheck, GitEvent.readDir, GitEvent.listRemote,
           GitEvent.fetch ["--depth", "1"],
           GitEvent.reset ["--hard", getTargetBranch branch]] ∧
      w.fetchFailure = none) := by
  by_cases hex : w.localFs.dirExists = false
  · cases hc : cloneStep remote branch w with
    | error e => exact Or.inl (by simp [getRepo, getRepoClone, hex, hc])
    | ok w1 => exact Or.inl (by simp [getRepo, getRepoClone, hex, hc])
  · by_cases hlen : w.localFs.entries.length = 0
    · cases hc : cloneStep remote branch w with
      | error e => exact Or.inr (Or.inl (by simp [getRepo, getRepoClone, hex, hlen, hc]))
      | ok w1 => exact Or.inr (Or.inl (by simp [getRepo, getRepoClone, hex, hlen, hc]))
    · cases hial : isAlreadyCloned remote w with
      | error e => exact Or.inr (Or.inr (Or.inl (by simp [getRepo, hex, hlen, hial])))
      | ok b =>
        cases b with
        | false => exact Or.inr (Or.inr (Or.inl (by simp [getRepo, hex, hlen, hial])))
        | true =>
          cases hf : w.fetchFailure with
          | some c =>
            exact Or.inr (Or.inr (Or.inr (Or.inl (by
              simp [getRepo, getRepoSync, hex, hlen, hial, fetchStep, hf]))))
          | none =>
            refine Or.inr (Or.inr (Or.inr (Or.inr ⟨?_, rfl⟩)))
            cases hr : resetStep (getTargetBranch branch) w with
            | error e =>
              simp [getRepo, getRepoSync, hex, hlen, hial, fetchStep, hf, hr]
            | ok w2 =>
              simp [getRepo, getRepoSync, hex, hlen, hial, fetchStep, hf, hr]

/-! ### C7 — failures propagate with their cause; no retry -/

/-- C7: `getRepo` issues each underlying client call at most once (no
retry), and a failing clone, fetch, reset or remote-URL query makes the
call reject with that failure's cause. -/
theorem failure_propagation_no_retry (cachePath remote : String)
    (branch : Option String) (w : World) :
    ((getRepo cachePath remote branch w).trace.countP GitEvent.isClone ≤ 1 ∧
     (getRepo cachePath remote branch w).trace.countP GitEvent.isFetch ≤ 1 ∧
     (getRepo cachePath remote branch w).trace.countP GitEvent.isReset ≤ 1 ∧
     (getRepo cachePath remote branch w).trace.countP GitEvent.isListRemote ≤ 1) ∧
    (∀ c, (w.localFs.dirExists = false ∨ w.localFs.entries = []) →
      w.cloneFailure = some c →
      (getRepo cachePath remote branch w).result
        = Except.error (SyncError.syncFailure c)) ∧
    (∀ c, w.localFs.dirExists = true → w.localFs.entries ≠ [] →
      w.listRemoteFailure = some c →
      (getRepo cachePath remote branch w).result
        = Except.error (SyncError.syncFailure c)) ∧
    (∀ c, w.localFs.dirExists = true → w.localFs.entries ≠ [] →
      w.localFs.isRepo = true → w.listRemoteFailure = none →
      jsTrim w.localFs.storedRemoteUrl = jsTrim remote →
      w.fetchFailure = some c →
      (getRepo cachePath remote branch w).result
        = Except.error (SyncError.syncFailure c)) ∧
    (∀ c, w.localFs.dirExists = true → w.localFs.entries ≠ [] →
      w.localFs.isRepo = true → w.listRemoteFailure = none →
      jsTrim w.localFs.storedRemoteUrl = jsTrim remote →
      w.fetchFailure = none → w.resetFailure = some c →
      (getRepo cachePath remote branch w).result
        = Except.error (SyncError.syncFailure c)) := by
  refine ⟨?_, ?_, ?_, ?_, ?_⟩
  · rcases getRepo_trace_cases cachePath remote branch w with h | h | h | h | ⟨h, _⟩ <;>
      rw [h] <;>
      simp [List.countP_cons, List.countP_nil, GitEvent.isClone, GitEvent.isFetch,
        GitEvent.isReset, GitEvent.isListRemote]
  · intro c habs hcf
    have hco : cloneStep remote branch w = Except.error c := by
      simp [cloneStep, hcf]
    rcases habs with hex | hempty
    · simp [getRepo, getRepoClone, hex, hco]
    · by_cases hex : w.localFs.dirExists = false
      · simp [getRepo, getRepoClone, hex, hco]
      · simp [getRepo, getRepoClone, hex, hempty, hco]
  · intro c hex hne hq
    have hlen : ¬ w.localFs.entries.length = 0 := by
      simpa [List.length_eq_zero] using hne
    simp [getRepo, isAlreadyCloned, listRemoteGetUrl, hex, hlen, hq]
  · intro c hex hne hrepo hq htrim hf
    have hlen : ¬ w.localFs.entries.length = 0 := by
      simpa [List.length_eq_zero] using hne
    have hb : (jsTrim w.localFs.storedRemoteUrl == jsTrim remote) = true :=
      beq_iff_eq.mpr htrim
    simp [getRepo, getRepoSync, isAlreadyCloned, listRemoteGetUrl, hex, hlen,
      hq, hrepo, hb, fetchStep, hf]
  · intro c hex hne hrepo hq htrim hf hrs
    have hlen : ¬ w.localFs.entries.length = 0 := by
      simpa [List.length_eq_zero] using hne
    have hb : (jsTrim w.localFs.storedRemoteUrl == jsTrim remote) = true :=
      beq_iff_eq.mpr htrim
    simp [getRepo, getRepoSync, isAlreadyCloned, listRemoteGetUrl, hex, hlen,
      hq, hrepo, hb, fetchStep, hf, resetStep, hrs]

/-- C7 witness: an injected fetch failure surfaces as the rejection cause,
and each client call was issued at most once. -/
theorem failure_propagation_no_retry_witness :
    (getRepo "/cache/site" "https://example.com/site.git" (some "main")
        wMatchingFetchDown).result
      = Except.error (SyncError.syncFailure "fatal: unable to access remote") ∧
    (getRepo "/cache/site" "https://example.com/site.git" (some "main")
        wMatchingFetchDown).trace.countP GitEvent.isFetch ≤ 1 := by
  have h := failure_propagation_no_retry "/cache/site" "https://example.com/site.git"
    (some "main") wMatchingFetchDown
  refine ⟨?_, h.1.2.1⟩
  exact h.2.2.2.1 "fatal: unable to access remote" rfl (by decide) rfl rfl
    (by decide) rfl

/-! ### C8 — detection precedes mutation; reset only after a completed fetch -/

/-- C8: in every `getRepo` trace the detection calls form a prefix that
precedes every mutating call, and a reset appears only immediately after a
fetch whose injected failure is absent — never before it and never without
it. -/
theorem detection_before_mutation (cachePath remote : String)
    (branch : Option String) (w : World) :
    (∃ d m, (getRepo cachePath remote branch w).trace = d ++ m ∧
      (∀ e ∈ d, e.isMutation = false) ∧
      (∀ e ∈ m, e.isMutation = true)) ∧
    (∀ ropts, GitEvent.reset ropts ∈ (getRepo cachePath remote branch w).trace →
      w.fetchFailure = none ∧
      (getRepo cachePath remote branch w).trace
        = [GitEvent.existsCheck, GitEvent.readDir, GitEvent.listRemote]
            ++ [GitEvent.fetch ["--depth", "1"], GitEvent.reset ropts]) := by
  rcases getRepo_trace_cases cachePath remote branch w with h | h | h | h | ⟨h, hf⟩
  · refine ⟨⟨[GitEvent.existsCheck],
      [GitEvent.clone remote cachePath (cloneOpts branch)], by simp [h], ?_, ?_⟩, ?_⟩
    · simp [GitEvent.isMutation]
    · simp [GitEvent.isMutation]
    · intro ropts hmem
      rw [h] at hmem
      simp at hmem
  · refine ⟨⟨[GitEvent.existsCheck, GitEvent.readDir],
      [GitEvent.clone remote cachePath (cloneOpts branch)], by simp [h], ?_, ?_⟩, ?_⟩
    · simp [GitEvent.isMutation]
    · simp [GitEvent.isMutation]
    · intro ropts hmem
      rw [h] at hmem
      simp at hmem
  · refine ⟨⟨[GitEvent.existsCheck, GitEvent.readDir, GitEvent.listRemote],
      [], by simp [h], ?_, ?_⟩, ?_⟩
    · simp [GitEvent.isMutation]
    · simp
    · intro ropts hmem
      rw [h] at hmem
      simp at hmem
  · refine ⟨⟨[GitEvent.existsCheck, GitEvent.readDir, GitEvent.listRemote],
      [GitEvent.fetch ["--depth", "1"]], by simp [h], ?_, ?_⟩, ?_⟩
    · simp [GitEvent.isMutation]
    · simp [GitEvent.isMutation]
    · intro ropts hmem
      rw [h] at hmem
      simp at hmem
  · refine ⟨⟨[GitEvent.existsCheck, GitEvent.readDir, GitEvent.listRemote],
      [GitEvent.fetch ["--depth", "1"],
       GitEvent.reset ["--hard", getTargetBranch branch]], by simp [h], ?_, ?_⟩, ?_⟩
    · simp [GitEvent.isMutation]
    · simp [GitEvent.isMutation]
    · intro ropts hmem
      rw [h] at hmem
      simp at hmem
      subst hmem
      exact ⟨hf, by simp [h]⟩

/-- C8 witness: a concrete re-sync issues exactly
detection, then fetch, then reset. -/
theorem detection_before_mutation_witness :
    (getRepo "/cache/site" "https://example.com/site.git" (some "main")
        wMatching).trace
      = [GitEvent.existsCheck, GitEvent.readDir, GitEvent.listRemote]
          ++ [GitEvent.fetch ["--depth", "1"],
              GitEvent.reset ["--hard", "origin/main"]] ∧
    wMatching.fetchFailure = none := by
  have h := detection_before_mutation "/cache/site" "https://example.com/site.git"
    (some "main") wMatching
  have hm := h.2 ["--hard", "origin/main"] (by decide)
  exact ⟨hm.2, hm.1⟩

/-! ### Idempotence machinery -/

theorem resolveOriginRef_localFs_update (target : String) (l : LocalState)
    (e : List String) (f : FileTree) (r : RemoteRepo) :
    resolveOriginRef target { l with entries := e, files := f } r
      = resolveOriginRef target l r := rfl

/-- Running `getRepo` again on the world a successful clone produced leaves
that world unchanged: the re-sync either fails before mutating or resets
the working tree to the very content the clone checked out. -/
theorem getRepo_after_clone (cachePath remote : String) (branch : Option String)
    (w w1 : World) (hc : cloneStep remote branch w = Except.ok w1) :
    (getRepo cachePath remote branch w1).world = w1 := by
  unfold cloneStep at hc
  cases hcf : w.cloneFailure with
  | some msg => simp [hcf] at hc
  | none =>
    cases branch with
    | some b =>
      cases hlk : lookupBranch b w.remote with
      | none => simp [hcf, hlk] at hc
      | some fs =>
        simp only [hcf, hlk, Except.ok.injEq] at hc
        subst hc
        cases hq : w.listRemoteFailure with
        | some c =>
          simp [getRepo, isAlreadyCloned, listRemoteGetUrl, hq]
        | none =>
          cases hf : w.fetchFailure with
          | some c =>
            simp [getRepo, getRepoSync, isAlreadyCloned, listRemoteGetUrl, hq,
              fetchStep, hf]
          | none =>
            cases hrs : w.resetFailure with
            | some c =>
              simp [getRepo, getRepoSync, isAlreadyCloned, listRemoteGetUrl, hq,
                fetchStep, hf, resetStep, hrs]
            | none =>
              simp [getRepo, getRepoSync, isAlreadyCloned, listRemoteGetUrl, hq,
                fetchStep, hf, resetStep, hrs, resolveOriginRef, getTargetBranch,
                jsTemplateArg, List.find?, hlk]
    | none =>
      cases hlk : lookupBranch w.remote.defaultBranch w.remote with
      | none => simp [hcf, hlk] at hc
      | some fs =>
        simp only [hcf, hlk, Except.ok.injEq] at hc
        subst hc
        cases hq : w.listRemoteFailure with
        | some c =>
          simp [getRepo, isAlreadyCloned, listRemoteGetUrl, hq]
        | none =>
          cases hf : w.fetchFailure with
          | some c =>
            simp [getRepo, getRepoSync, isAlreadyCloned, listRemoteGetUrl, hq,
              fetchStep, hf]
          | none =>
            cases hrs : w.resetFailure with
            | some c =>
              simp [getRepo, getRepoSync, isAlreadyCloned, listRemoteGetUrl, hq,
                fetchStep, hf, resetStep, hrs]
            | none =>
              by_cases hb : (getTargetBranch none
                  == "origin/" ++ w.remote.defaultBranch) = true
              · simp [getRepo, getRepoSync, isAlreadyCloned, listRemoteGetUrl, hq,
                  fetchStep, hf, resetStep, hrs, resolveOriginRef, List.find?,
                  hb, hlk]
              · have hb' : (getTargetBranch none
                    == "origin/" ++ w.remote.defaultBranch) = false := by
                  revert hb
                  cases getTargetBranch none == "origin/" ++ w.remote.defaultBranch <;>
                    simp
                simp [getRepo, getRepoSync, isAlreadyCloned, listRemoteGetUrl, hq,
                  fetchStep, hf, resetStep, hrs, resolveOriginRef, List.find?, hb']

/-- Lemma: `getRepo` never changes the upstream remote: the second of two
back-to-back calls sees the same upstream as the first (no upstream
changes between the calls). -/
theorem getRepo_world_remote (cachePath remote : String)
    (branch : Option String) (w : World) :
    (getRepo cachePath remote branch w).world.remote = w.remote := by
  have hclone : ∀ w1, cloneStep remote branch w = Except.ok w1 →
      w1.remote = w.remote := by
    intro w1 hc
    unfold cloneStep at hc
    split at hc
    · simp at hc
    · split at hc
      · split at hc
        · injection hc with h
          subst h
          rfl
        · simp at hc
      · split at hc
        · injection hc with h
          subst h
          rfl
        · simp at hc
  by_cases hex : w.localFs.dirExists = false
  · cases hc : cloneStep remote branch w with
    | error e => simp [getRepo, getRepoClone, hex, hc]
    | ok w1 => simpa [getRepo, getRepoClone, hex, hc] using hclone w1 hc
  · by_cases hlen : w.localFs.entries.length = 0
    · cases hc : cloneStep remote branch w with
      | error e => simp [getRepo, getRepoClone, hex, hlen, hc]
      | ok w1 => simpa [getRepo, getRepoClone, hex, hlen, hc] using hclone w1 hc
    · cases hial : isAlreadyCloned remote w with
      | error e => simp [getRepo, hex, hlen, hial]
      | ok b =>
        cases b with
        | false => simp [getRepo, hex, hlen, hial]
        | true =>
          cases hf : w.fetchFailure with
          | some c => simp [getRepo, getRepoSync, hex, hlen, hial, fetchStep, hf]
          | none =>
            cases hrs : w.resetFailure with
            | some c =>
              simp [getRepo, getRepoSync, hex, hlen, hial, fetchStep, hf,
                resetStep, hrs]
            | none =>
              cases hres : resolveOriginRef (getTargetBranch branch) w.localFs
                  w.remote with
              | none =>
                simp [getRepo, getRepoSync, hex, hlen, hial, fetchStep, hf,
                  resetStep, hrs, hres]
              | some fs =>
                simp [getRepo, getRepoSync, hex, hlen, hial, fetchStep, hf,
                  resetStep, hrs, hres]

/-- Running `getRepo` twice back to back reaches a fixed point after the
first call: the second call leaves the world exactly as the first left
it. -/
theorem getRepo_world_idem (cachePath remote : String)
    (branch : Option String) (w : World) :
    (getRepo cachePath remote branch ((getRepo cachePath remote branch w).world)).world
      = (getRepo cachePath remote branch w).world := by
  by_cases hex : w.localFs.dirExists = false
  · cases hc : cloneStep remote branch w with
    | error e =>
      have hW : (getRepo cachePath remote branch w).world = w := by
        simp [getRepo, getRepoClone, hex, hc]
      rw [hW]
      exact hW
    | ok w1 =>
      have hW : (getRepo cachePath remote branch w).world = w1 := by
        simp [getRepo, getRepoClone, hex, hc]
      rw [hW]
      exact getRepo_after_clone cachePath remote branch w w1 hc
  · by_cases hlen : w.localFs.entries.length = 0
    · cases hc : cloneStep remote branch w with
      | error e =>
        have hW : (getRepo cachePath remote branch w).world = w := by
          simp [getRepo, getRepoClone, hex, hlen, hc]
        rw [hW]
        exact hW
      | ok w1 =>
        have hW : (getRepo cachePath remote branch w).world = w1 := by
          simp [getRepo, getRepoClone, hex, hlen, hc]
        rw [hW]
        exact getRepo_after_clone cachePath remote branch w w1 hc
    · cases hial : isAlreadyCloned remote w with
      | error e =>
        have hW : (getRepo cachePath remote branch w).world = w := by
          simp [getRepo, hex, hlen, hial]
        rw [hW]
        exact hW
      | ok b =>
        cases b with
        | false =>
          have hW : (getRepo cachePath remote branch w).world = w := by
            simp [getRepo, hex, hlen, hial]
          rw [hW]
          exact hW
        | true =>
          have hq : w.listRemoteFailure = none := by
            cases hq' : w.listRemoteFailure with
            | none => rfl
            | some c => simp [isAlreadyCloned, listRemoteGetUrl, hq'] at hial
          have hrepo : w.localFs.isRepo = true := by
            cases hr' : w.localFs.isRepo with
            | false => simp [isAlreadyCloned, listRemoteGetUrl, hq, hr'] at hial
            | true => rfl
          have hbeq : (jsTrim w.localFs.storedRemoteUrl == jsTrim remote) = true := by
            have h := hial
            simp [isAlreadyCloned, listRemoteGetUrl, hq, hrepo] at h
            exact beq_iff_eq.mpr h
          cases hf : w.fetchFailure with
          | some c =>
            have hW : (getRepo cachePath remote branch w).world = w := by
              simp [getRepo, getRepoSync, hex, hlen, hial, fetchStep, hf]
            rw [hW]
            exact hW
          | none =>
            cases hrs : w.resetFailure with
            | some c =>
              have hW : (getRepo cachePath remote branch w).world = w := by
                simp [getRepo, getRepoSync, hex, hlen, hial, fetchStep, hf,
                  resetStep, hrs]
              rw [hW]
              exact hW
            | none =>
              cases hfind : w.localFs.originRefs.find?
                  (fun b => getTargetBranch branch == "origin/" ++ b) with
              | none =>
                have hW : (getRepo cachePath remote branch w).world = w := by
                  simp [getRepo, getRepoSync, hex, hlen, hial, fetchStep, hf,
                    resetStep, hrs, resolveOriginRef, hfind]
                rw [hW]
                exact hW
              | some b =>
                cases hlk2 : lookupBranch b w.remote with
                | none =>
                  have hW : (getRepo cachePath remote branch w).world = w := by
                    simp [getRepo, getRepoSync, hex, hlen, hial, fetchStep, hf,
                      resetStep, hrs, resolveOriginRef, hfind, hlk2]
                  rw [hW]
                  exact hW
                | some fs =>
                  have hex' : w.localFs.dirExists = true :=
                    dirExists_true_of_not_false w hex
                  have hW : (getRepo cachePath remote branch w).world
                      = { w with localFs := { w.localFs with
                          entries := ".git" :: fs.map Prod.fst, files := fs } } := by
                    simp [getRepo, getRepoSync, hex, hlen, hial, fetchStep, hf,
                      resetStep, hrs, resolveOriginRef, hfind, hlk2]
                  rw [hW]
                  simp [getRepo, getRepoSync, isAlreadyCloned, listRemoteGetUrl,
                    hex', hq, hrepo, hbeq, fetchStep, hf, resetStep, hrs,
                    resolveOriginRef, hfind, hlk2]

/-! ### C9 — synchronization is idempotent on checkout content -/

/-- C9: with no upstream change between the calls (`getRepo` itself never
alters the upstream remote), a second `getRepo` with identical arguments
leaves the checkout content byte-identical to what the first call left. -/
theorem synchronize_idempotent_content (cachePath remote : String)
    (branch : Option String) (w : World) :
    (getRepo cachePath remote branch w).world.remote = w.remote ∧
    (getRepo cachePath remote branch
        ((getRepo cachePath remote branch w).world)).world.localFs.files
      = (getRepo cachePath remote branch w).world.localFs.files := by
  refine ⟨getRepo_world_remote cachePath remote branch w, ?_⟩
  rw [getRepo_world_idem]

end GitSourcePlugin
